import Mathlib

/-!
Shallow embedding of the `clouds` RPC client (`lib/client.js`, together with
the defaults in `lib/define.js`).  The embedding models the client's mutable
state (`_messages`, `_servers`, `_serversTimestamp`) as association lists,
JavaScript callbacks as recorded invocation traces, and the asynchronous
sources (redis `keys` replies, `setTimeout` expiry, incoming `message`
events, `exit`) as events consumed by a step function.  Values carried in
call arguments are modelled by `Nat`.
-/

namespace Clouds

/-- A JavaScript `Error` object as used by the client: a message together
with the `code` property attached at the throw site. -/
structure Err where
  message : String
  code : String
deriving DecidableEq, Repr

/-- The error built by `checkTimeout` in `CloudsClient.prototype.call`:
`new Error('timeout')` with `err.code = 'CLOUDS_CALL_SERVICE_TIMEOUT'`. -/
def timeoutError : Err :=
  { message := "timeout", code := "CLOUDS_CALL_SERVICE_TIMEOUT" }

/-- The error built by `returnOneServer` in `_findOneServer`:
`new Error('no available server')` with
`err.code = 'CLOUDS_NO_AVAILABLE_SERVER'`. -/
def noAvailableServerError : Err :=
  { message := "no available server", code := "CLOUDS_NO_AVAILABLE_SERVER" }

/-! ### Association-list maps

JavaScript plain objects used as dictionaries (`this._messages`,
`this._servers`, `this._serversTimestamp`) are modelled as association
lists with these operations. -/

/-- Look up key `k` (`obj[k]`, `none` for an absent property). -/
def mapGet {α : Type} (m : List (String × α)) (k : String) : Option α :=
  (m.find? (fun p => p.1 = k)).map (·.2)

/-- Set key `k` to `v` (`obj[k] = v`). -/
def mapSet {α : Type} (m : List (String × α)) (k : String) (v : α) :
    List (String × α) :=
  (k, v) :: m.filter (fun p => ¬ p.1 = k)

/-- Delete key `k` (`delete obj[k]`). -/
def mapDel {α : Type} (m : List (String × α)) (k : String) :
    List (String × α) :=
  m.filter (fun p => ¬ p.1 = k)

/-! ### Key scheme

`CloudsClient.prototype._key` joins its arguments with `':'`, prepending
the configured redis prefix when it is non-empty (JavaScript truthiness
of a string is non-emptiness). -/

/-- `_key(...parts)`: colon-joined segments with the optional prefix `pfx`. -/
def clientKey (pfx : String) (parts : List String) : String :=
  let list := if pfx = "" then parts else pfx :: parts
  String.intercalate ":" list

/-- The channel this client listens on: `_key('L', this._id)`. -/
def listenChannel (pfx : String) (clientId : String) : String :=
  clientKey pfx ["L", clientId]

/-! ### Result listener (`_listen`, `_handleMessage`, `_handleCallResult`)

The decoded wire envelope (the output of `utils.parseMessage`, an external
collaborator) carries the fields the handlers read: `id`, `sender`, `type`,
`args` and `error`.  `msg.error || null` is modelled by `Option Err`.
The pending-handler table `this._messages` maps a correlation id to a
handler; handlers are identified by opaque `Nat` tokens, and invoking one
is recorded as an output value. -/

structure Envelope where
  id : String
  sender : String
  type : String
  args : List Nat
  error : Option Err
deriving DecidableEq, Repr

/-- Processing one `message` event delivered to the subscription connection:
the channel guard of `_listen`, then `_handleMessage` / `_handleCallResult`.
Returns the new `_messages` table and, when a pending handler was invoked,
the token of that handler together with the `(error-or-null, ...args)`
payload it was applied to. -/
def onMessage (listenKey : String) (messages : List (String × Nat))
    (channel : String) (msg : Envelope) :
    List (String × Nat) × Option (Nat × Option Err × List Nat) :=
  if channel ≠ listenKey then
    (messages, none)
  else if msg.type = "result" then
    match mapGet messages msg.id with
    | none => (messages, none)
    | some fn => (mapDel messages msg.id, some (fn, msg.error, msg.args))
  else
    (messages, none)

/-! ### Server registry (`_findOneServer`, `_saveServerList`,
`_removeServer`, `_autoClearServerList`) -/

/-- The id extraction applied to each key matched by the scan in
`_findOneServer`: `item.split(':').pop()`. -/
def extractServerId (item : String) : String :=
  (item.splitOn ":").getLastD ""

/-- `_saveServerList(name, list)`: store the list and stamp the entry with
`Date.now()` (passed in as `now`). -/
def saveServerList (servers : List (String × List String))
    (serversTimestamp : List (String × Int)) (name : String)
    (list : List String) (now : Int) :
    List (String × List String) × List (String × Int) :=
  (mapSet servers name list, mapSet serversTimestamp name now)

/-- The cache probe at the top of `_findOneServer`: after the
array-coercion `if (!Array.isArray(...)) ... = []`, a redis `keys` scan is
issued exactly when the cached list for `name` has fewer than one
element. -/
def scanIssued (servers : List (String × List String)) (name : String) :
    Bool :=
  ((mapGet servers name).getD []).length < 1

/-- `returnOneServer` in `_findOneServer`: fail with
`CLOUDS_NO_AVAILABLE_SERVER` when the list is empty, otherwise answer the
entry at index `parseInt(Math.random() * len, 10)`; the random draw is
modelled by an arbitrary natural number reduced modulo the length. -/
def returnOneServer (list : List String) (rand : Nat) : Except Err String :=
  if list.length < 1 then .error noAvailableServerError
  else .ok (list.getD (rand % list.length) "")

/-- The local half of `_removeServer(serverId, name)`: the list is
reassigned to `filter(item => item !== serverId)` only when the entry
exists and is non-empty.  When the timeout fired before discovery
answered, `serverId` is still `undefined` and the strict comparison
`item !== undefined` keeps every string entry. -/
def removeServerFilter (l : List String) (serverId : Option String) :
    List String :=
  match serverId with
  | some sid => l.filter (fun item => item ≠ sid)
  | none => l

/-- `_removeServer(serverId, name)`: filter the id out of the local list
and, unless `notAutoCleanRemoteServer` is configured, delete the remote
registration key `_key('S', name, serverId)` (JavaScript's `join` renders
an `undefined` segment as the string `"undefined"`).  Returns the new
`_servers` table and the redis keys deleted. -/
def removeServer (servers : List (String × List String)) (pfx : String)
    (notAutoClean : Bool) (serverId : Option String) (name : String) :
    List (String × List String) × List String :=
  let servers' :=
    match mapGet servers name with
    | some l =>
        if l.length > 0 then
          mapSet servers name (removeServerFilter l serverId)
        else servers
    | none => servers
  let dels :=
    if notAutoClean then []
    else [clientKey pfx ["S", name, serverId.getD "undefined"]]
  (servers', dels)

/-- The predicate of one `_autoClearServerList` tick: with
`t = Date.now() - serverMaxAge * 1000`, an entry named `name` is cleared
when `this._serversTimestamp[name] <= t` (an absent timestamp compares
false in JavaScript). -/
def sweepExpired (serversTimestamp : List (String × Int)) (t : Int)
    (name : String) : Bool :=
  match mapGet serversTimestamp name with
  | some ts => ts ≤ t
  | none => false

/-- One tick of the `_autoClearServerList` interval: iterate over the keys
of `this._servers` and `delete` both the server list and its timestamp for
every name whose timestamp is `≤ Date.now() - serverMaxAge * 1000`. -/
def autoClearTick (servers : List (String × List String))
    (serversTimestamp : List (String × Int)) (now maxAge : Int) :
    List (String × List String) × List (String × Int) :=
  let t := now - maxAge * 1000
  let names := servers.map (·.1)
  (servers.filter (fun p => !sweepExpired serversTimestamp t p.1),
   serversTimestamp.filter
     (fun p => !(names.contains p.1 && sweepExpired serversTimestamp t p.1)))

/-- The period passed to `setInterval` in `_autoClearServerList`:
`this._serverMaxAge * 500` milliseconds, i.e. `serverMaxAge * 0.5`
seconds. -/
def autoClearIntervalMs (serverMaxAge : Int) : Int := serverMaxAge * 500

/-! ### One dispatched call (`call`, `cb`, `checkTimeout`, `exit`)

`CloudsClient.prototype.call` builds, per invocation, a closure with the
`hasCallback` latch, the `serverId` variable and the timer handle `tid`.
`CallState` carries that closure together with the parts of the client
state the call touches; the asynchronous continuations are consumed as
`CallEvent`s. -/

structure CallState where
  /-- the configured redis key prefix (`this._prefix`). -/
  pfx : String
  /-- the called service name. -/
  name : String
  /-- the correlation id generated by `utils.pocketCallMessage`. -/
  msgId : String
  /-- the encoded envelope `msg.data` handed to `_sendCallRequest`. -/
  msgData : String
  /-- the `notAutoCleanRemoteServer` option. -/
  notAutoCleanRemoteServer : Bool
  /-- `this._servers`. -/
  servers : List (String × List String)
  /-- `this._serversTimestamp`. -/
  serversTimestamp : List (String × Int)
  /-- whether `this._messages[msg.id]` currently holds this call's `cb`. -/
  registered : Bool
  /-- a redis `keys` scan issued by `_findOneServer` awaits its reply. -/
  scanPending : Bool
  /-- the `_autoClearServerList` interval is armed. -/
  sweepActive : Bool
  /-- the two redis connections are open. -/
  connOpen : Bool
  /-- the `var serverId` of the `call` closure. -/
  serverId : Option String
  /-- the `hasCallback` latch of the `call` closure. -/
  hasCallback : Bool
  /-- `tid` is armed and has neither been cleared nor fired. -/
  timerArmed : Bool
  /-- invocations of the user-supplied completion callback, in order. -/
  fired : List (Option Err × List Nat)
  /-- publishes issued by `_sendCallRequest`, as (channel, payload). -/
  published : List (String × String)
  /-- redis keys deleted by `_removeServer`. -/
  deletedKeys : List String
deriving DecidableEq, Repr

/-- The `cb` closure in `call`: the exactly-once latch.  When
`hasCallback` is already set it only logs and returns; otherwise it sets
the latch, clears the timeout timer (`clearTimeout(tid)`) and applies the
user callback to its arguments. -/
def cbFire (s : CallState) (e : Option Err) (args : List Nat) : CallState :=
  if s.hasCallback then s
  else { s with hasCallback := true, timerArmed := false,
                fired := s.fired ++ [(e, args)] }

/-- The continuation `returnOneServer` reaching `call`'s
`function (err, ret)` callback: on error run `cb(err)`; on success record
`serverId = ret`, register `me._messages[msg.id] = cb` and publish the
request to `_key('L', serverId)` via `_sendCallRequest`. -/
def afterFindOneServer (s : CallState) (rand : Nat) : CallState :=
  match returnOneServer ((mapGet s.servers s.name).getD []) rand with
  | .error e => cbFire s (some e) []
  | .ok sid =>
      { s with serverId := some sid,
               registered := true,
               published :=
                 s.published ++ [(clientKey s.pfx ["L", sid], s.msgData)] }

/-- The asynchronous sources acting on a dispatched call. -/
inductive CallEvent where
  /-- the redis `keys` reply to the scan issued by `_findOneServer`,
  carrying the matched keys, the `Math.random()` draw used by
  `returnOneServer`, and `Date.now()` as observed by `_saveServerList`. -/
  | keysReply (keys : List String) (rand : Nat) (now : Int)
  /-- the per-call timeout timer fires (`checkTimeout`). -/
  | timerFire
  /-- a `result` envelope for this call's correlation id is routed to the
  registered handler by `_handleCallResult`. -/
  | resultMsg (error : Option Err) (args : List Nat)
  /-- `CloudsClient.prototype.exit` runs. -/
  | exitEv
deriving DecidableEq, Repr

/-- One step of the dispatched-call machine.  `keysReply` runs the scan
continuation of `_findOneServer` (`_saveServerList`, then
`returnOneServer`); `timerFire` runs `checkTimeout`
(`_removeMessageHandler`, `_removeServer`, `cb(err)`); `resultMsg` runs
`_handleCallResult` for this call's id; `exitEv` runs `exit`
(`clearInterval(_clearServerListTid)`, `_cp.end()`, `_cs.end()` — and
nothing else: neither `_messages` nor any per-call timer is touched). -/
def stepCall (s : CallState) (ev : CallEvent) : CallState :=
  match ev with
  | .keysReply keys rand now =>
      if s.scanPending then
        let list := keys.map extractServerId
        let r := saveServerList s.servers s.serversTimestamp s.name list now
        afterFindOneServer
          { s with scanPending := false, servers := r.1,
                   serversTimestamp := r.2 } rand
      else s
  | .timerFire =>
      if s.timerArmed then
        let s1 := { s with timerArmed := false, registered := false }
        let r := removeServer s1.servers s.pfx s.notAutoCleanRemoteServer
                   s.serverId s.name
        cbFire { s1 with servers := r.1,
                         deletedKeys := s1.deletedKeys ++ r.2 }
          (some timeoutError) []
      else s
  | .resultMsg e args =>
      if s.registered then cbFire { s with registered := false } e args
      else s
  | .exitEv =>
      { s with sweepActive := false, connOpen := false }

/-- The synchronous part of `CloudsClient.prototype.call`: build the
envelope, start `_findOneServer` (which either answers synchronously from
a non-empty cached list or issues a redis `keys` scan), and finally arm
the timeout timer `var tid = setTimeout(checkTimeout, me._timeout * 1000)`
unconditionally.  `rand` models the `Math.random()` draw used when the
cached list answers synchronously. -/
def mkCall (pfx name msgId msgData : String) (notAutoClean : Bool)
    (servers0 : List (String × List String))
    (ts0 : List (String × Int)) (rand : Nat) : CallState :=
  let base : CallState :=
    { pfx := pfx, name := name, msgId := msgId, msgData := msgData,
      notAutoCleanRemoteServer := notAutoClean,
      servers :=
        if (mapGet servers0 name).isSome then servers0
        else mapSet servers0 name [],
      serversTimestamp := ts0,
      registered := false, scanPending := false,
      sweepActive := true, connOpen := true,
      serverId := none, hasCallback := false, timerArmed := false,
      fired := [], published := [], deletedKeys := [] }
  let afterFind :=
    if scanIssued base.servers name then { base with scanPending := true }
    else afterFindOneServer base rand
  { afterFind with timerArmed := true }

/-- Fold a list of asynchronous events over a dispatched call. -/
def runCall (s : CallState) (events : List CallEvent) : CallState :=
  events.foldl stepCall s

/-! ### The retry wrapper (`bind`) -/

/-- The closure state shared by every invocation of the caller returned by
`bind(name, retry)` when no `onRetry` argument was supplied: the `onRetry`
variable of the `bind` closure.  The first invocation finds it undefined
and assigns the default closure, which captures that invocation's `args`
(already stripped of the trailing callback) and its `call` — hence its
`onCallback` and its `callback`.  `none` models `onRetry` not yet being a
function; `some (args, cb)` models the assigned default closure with its
captured arguments and callback token. -/
structure BindClosure where
  onRetryCaptured : Option (List Nat × Nat)
deriving DecidableEq, Repr

/-- One invocation of the bound caller with positional arguments `args`
and trailing callback token `cb`: after `args.pop()`, `onRetry` is
assigned the capturing default only if it is not yet a function; `start()`
then applies `onRetry`, and the default closure ignores its parameters and
runs `call.apply(null, args)` with the *captured* `args` and `call`.
Returns the new closure state together with the `(args, callback)` pair
actually passed to `me.call(name, args, onCallback)`. -/
def bindInvoke (st : BindClosure) (args : List Nat) (cb : Nat) :
    BindClosure × (List Nat × Nat) :=
  match st.onRetryCaptured with
  | none => ({ onRetryCaptured := some (args, cb) }, (args, cb))
  | some captured => (st, captured)

/-- The retry decision taken by `onCallback` in `bind` when an attempt
completes. -/
inductive RetryAction where
  /-- fall through to `callback.apply(null, arguments)`. -/
  | terminal
  /-- `return tryAgain()` — the `CLOUDS_CALL_SERVICE_TIMEOUT` branch. -/
  | retryImmediate
  /-- `return setTimeout(tryAgain, timeout)` — the
  `CLOUDS_NO_AVAILABLE_SERVER` branch, delayed by `timeout` ms. -/
  | retryDelayed (delayMs : Nat)
deriving DecidableEq, Repr

/-- `onCallback(err)`: when `err` is truthy and `retryCounter < retry`,
retry on `CLOUDS_CALL_SERVICE_TIMEOUT` immediately and on
`CLOUDS_NO_AVAILABLE_SERVER` after `timeout` milliseconds (the `bind`
closure's `me._timeout * 1000`); in every other case apply the outer
callback. -/
def retryAction (timeoutMs : Nat) (err : Option Err)
    (retryCounter retry : Nat) : RetryAction :=
  match err with
  | some e =>
      if retryCounter < retry then
        if e.code = "CLOUDS_CALL_SERVICE_TIMEOUT" then .retryImmediate
        else if e.code = "CLOUDS_NO_AVAILABLE_SERVER" then
          .retryDelayed timeoutMs
        else .terminal
      else .terminal
  | none => .terminal

/-- The `timeout` captured by `bind`: `me._timeout * 1000`, clamped to `0`
when not positive. -/
def bindTimeoutMs (timeoutSeconds : Nat) : Nat :=
  if timeoutSeconds * 1000 > 0 then timeoutSeconds * 1000 else 0

/-- The attempt loop of one outer invocation of a bound caller:
`outcomes k` is the error with which the `k`-th dispatched call completes
(`none` for success).  Returns the number of calls dispatched and the
error delivered to the outer callback.  The loop ends at the latest when
`retryCounter` reaches `retry`, so `retry` units of fuel suffice; the
fuel-exhausted branch is unreachable from `runBound`. -/
def runBoundAux (timeoutMs : Nat) (outcomes : Nat → Option Err)
    (retry : Nat) : Nat → Nat → Nat × Option Err
  | retryCounter, fuel =>
    let e := outcomes retryCounter
    match retryAction timeoutMs e retryCounter retry, fuel with
    | .terminal, _ => (1, e)
    | _, 0 => (1, e)
    | _, fuel' + 1 =>
        let r := runBoundAux timeoutMs outcomes retry (retryCounter + 1) fuel'
        (r.1 + 1, r.2)

/-- One outer invocation of a bound caller, starting from
`retryCounter = 0`. -/
def runBound (timeoutMs : Nat) (outcomes : Nat → Option Err)
    (retry : Nat) : Nat × Option Err :=
  runBoundAux timeoutMs outcomes retry 0 retry

/-! ### `exit` and `_callback` -/

/-- A JavaScript function value as `_callback` distinguishes them. -/
inductive JsFun where
  /-- a function supplied by the caller, identified by a token. -/
  | userFn (tok : Nat)
  /-- the logging fallback that `_callback` builds when its argument is
  not a function. -/
  | defaultDebugFn
deriving DecidableEq, Repr

/-- `CloudsClient.prototype._callback(fn)`: return `fn` unchanged when it
is a function, otherwise return the logging fallback.  It never invokes
`fn`. -/
def clientCallback (fn : Option JsFun) : JsFun :=
  match fn with
  | some f => f
  | none => .defaultDebugFn

/-- The operations `exit` can perform, as an observable trace. -/
inductive ExitOp where
  /-- `clearInterval(me._clearServerListTid)`. -/
  | clearSweepInterval
  /-- `me._cp.end()`. -/
  | endConnectionP
  /-- `me._cs.end()`. -/
  | endConnectionS
  /-- applying a function value — never emitted by `exit`. -/
  | invoke (f : JsFun)
deriving DecidableEq, Repr

/-- `CloudsClient.prototype.exit(callback)` as the trace of operations it
performs: clear the sweep interval, end both redis connections, and
evaluate `me._callback(callback)` as its final expression statement — the
wrapper is built and discarded, never applied. -/
def exitOps (callback : Option JsFun) : List ExitOp :=
  let _wrapper := clientCallback callback
  [.clearSweepInterval, .endConnectionP, .endConnectionS]

/-! ## Helper lemmas -/

theorem mapGet_cons {α : Type} (p : String × α) (t : List (String × α))
    (k : String) :
    mapGet (p :: t) k = if p.1 = k then some p.2 else mapGet t k := by
  by_cases h : p.1 = k
  · simp [mapGet, List.find?_cons_of_pos, h]
  · simp [mapGet, List.find?_cons_of_neg, h]

theorem mapGet_mapSet_self {α : Type} (m : List (String × α)) (k : String)
    (v : α) : mapGet (mapSet m k v) k = some v := by
  simp [mapGet, mapSet, List.find?]

/-- Looking a key up after filtering by a predicate on keys alone. -/
theorem mapGet_filter_keyPred {α : Type} (m : List (String × α))
    (f : String → Bool) (k : String) :
    mapGet (m.filter (fun p => f p.1)) k =
      if f k then mapGet m k else none := by
  induction m with
  | nil => cases hf : f k <;> simp [mapGet]
  | cons p t ih =>
    rw [List.filter_cons]
    cases hf : f p.1 with
    | true =>
      by_cases hk : p.1 = k
      · subst hk
        simp [mapGet_cons, hf]
      · simp [mapGet_cons, hk, ih]
    | false =>
      by_cases hk : p.1 = k
      · subst hk
        simp [ih, hf]
      · simp [ih, mapGet_cons, hk]

theorem mapGet_mapDel_self {α : Type} (m : List (String × α)) (k : String) :
    mapGet (mapDel m k) k = none := by
  have h := mapGet_filter_keyPred m (fun s => decide (¬ s = k)) k
  simpa [mapDel] using h

/-- Variant of `mapGet_filter_keyPred` for a negated predicate: filtering
out the keys satisfying `f`. -/
theorem mapGet_filter_keyPred_not {α : Type} (m : List (String × α))
    (f : String → Bool) (k : String) :
    mapGet (m.filter (fun p => !f p.1)) k =
      if f k then none else mapGet m k := by
  have h := mapGet_filter_keyPred m (fun s => !f s) k
  cases hf : f k
  · simpa [hf] using h
  · simpa [hf] using h

theorem cbFire_inv (s : CallState) (e : Option Err) (a : List Nat)
    (h1 : s.hasCallback = false → s.fired = [])
    (h2 : s.fired.length ≤ 1) :
    ((cbFire s e a).hasCallback = false → (cbFire s e a).fired = []) ∧
    (cbFire s e a).fired.length ≤ 1 := by
  by_cases hc : s.hasCallback = true
  · rw [show cbFire s e a = s from by simp [cbFire, hc]]
    exact ⟨h1, h2⟩
  · have hc' : s.hasCallback = false := by
      revert hc; cases s.hasCallback <;> simp
    simp [cbFire, hc', h1 hc']

theorem afterFindOneServer_inv (s : CallState) (rand : Nat)
    (h1 : s.hasCallback = false → s.fired = [])
    (h2 : s.fired.length ≤ 1) :
    ((afterFindOneServer s rand).hasCallback = false →
      (afterFindOneServer s rand).fired = []) ∧
    (afterFindOneServer s rand).fired.length ≤ 1 := by
  unfold afterFindOneServer
  cases heq : returnOneServer ((mapGet s.servers s.name).getD []) rand with
  | error e0 => exact cbFire_inv s (some e0) [] h1 h2
  | ok sid => simpa using ⟨h1, h2⟩

theorem stepCall_inv (s : CallState) (ev : CallEvent)
    (h1 : s.hasCallback = false → s.fired = [])
    (h2 : s.fired.length ≤ 1) :
    ((stepCall s ev).hasCallback = false → (stepCall s ev).fired = []) ∧
    (stepCall s ev).fired.length ≤ 1 := by
  cases ev with
  | keysReply keys rand now =>
      by_cases hp : s.scanPending = true
      · simp only [stepCall, hp, if_true]
        exact afterFindOneServer_inv _ rand h1 h2
      · rw [show stepCall s (CallEvent.keysReply keys rand now) = s from by
          simp [stepCall, hp]]
        exact ⟨h1, h2⟩
  | timerFire =>
      by_cases ht : s.timerArmed = true
      · simp only [stepCall, ht, if_true]
        exact cbFire_inv _ (some timeoutError) [] h1 h2
      · rw [show stepCall s CallEvent.timerFire = s from by
          simp [stepCall, ht]]
        exact ⟨h1, h2⟩
  | resultMsg e args =>
      by_cases hr : s.registered = true
      · simp only [stepCall, hr, if_true]
        exact cbFire_inv _ e args h1 h2
      · rw [show stepCall s (CallEvent.resultMsg e args) = s from by
          simp [stepCall, hr]]
        exact ⟨h1, h2⟩
  | exitEv => exact ⟨h1, h2⟩

theorem runCall_inv (events : List CallEvent) (s : CallState)
    (h1 : s.hasCallback = false → s.fired = [])
    (h2 : s.fired.length ≤ 1) :
    ((runCall s events).hasCallback = false →
      (runCall s events).fired = []) ∧
    (runCall s events).fired.length ≤ 1 := by
  induction events generalizing s with
  | nil => exact ⟨h1, h2⟩
  | cons ev evs ih =>
      have h := stepCall_inv s ev h1 h2
      exact ih (stepCall s ev) h.1 h.2

theorem mkCall_fired_nil (pfx name msgId msgData : String)
    (notAutoClean : Bool) (servers0 : List (String × List String))
    (ts0 : List (String × Int)) (rand : Nat) :
    (mkCall pfx name msgId msgData notAutoClean servers0 ts0 rand).fired
        = [] ∧
    (mkCall pfx name msgId msgData notAutoClean servers0 ts0
        rand).hasCallback = false := by
  unfold mkCall
  set base : CallState :=
    { pfx := pfx, name := name, msgId := msgId, msgData := msgData,
      notAutoCleanRemoteServer := notAutoClean,
      servers :=
        if (mapGet servers0 name).isSome then servers0
        else mapSet servers0 name [],
      serversTimestamp := ts0,
      registered := false, scanPending := false,
      sweepActive := true, connOpen := true,
      serverId := none, hasCallback := false, timerArmed := false,
      fired := [], published := [], deletedKeys := [] } with hbase
  by_cases hs : scanIssued base.servers name = true
  · simp [hs]
  · have hlen : ¬ ((mapGet base.servers name).getD []).length < 1 := by
      simpa [scanIssued] using hs
    have hret : returnOneServer ((mapGet base.servers name).getD []) rand
        = .ok (((mapGet base.servers name).getD []).getD
            (rand % ((mapGet base.servers name).getD []).length) "") := by
      simp [returnOneServer, hlen]
    simp [hs, afterFindOneServer, hbase, hret]

/-! ## Claim theorems -/

/-- C1: for every dispatched call, however the asynchronous sources
(timeout expiry, result-envelope arrival, scan replies, shutdown)
interleave, the completion callback passed to `call(name, args, callback)`
is invoked at most once; moreover once the `hasCallback` latch has
tripped, any further source leaves the invocation trace unchanged. -/
theorem call_callback_at_most_once (pfx name msgId msgData : String)
    (notAutoClean : Bool) (servers0 : List (String × List String))
    (ts0 : List (String × Int)) (rand : Nat)
    (events : List CallEvent) :
    (runCall (mkCall pfx name msgId msgData notAutoClean servers0 ts0 rand)
        events).fired.length ≤ 1 ∧
    (∀ s : CallState, ∀ ev : CallEvent, s.hasCallback = true →
      (stepCall s ev).fired = s.fired) := by
  constructor
  · have h0 := mkCall_fired_nil pfx name msgId msgData notAutoClean
      servers0 ts0 rand
    exact (runCall_inv events _ (fun _ => h0.1) (by simp [h0.1])).2
  · intro s ev hcb
    cases ev with
    | keysReply keys rand2 now =>
        by_cases hp : s.scanPending = true
        · simp only [stepCall, hp, if_true]
          unfold afterFindOneServer
          cases heq : returnOneServer
              ((mapGet (saveServerList s.servers s.serversTimestamp s.name
                  (keys.map extractServerId) now).1 s.name).getD []) rand2
            with
          | error e0 => simp [cbFire, hcb]
          | ok sid => simp
        · simp [stepCall, hp]
    | timerFire =>
        by_cases ht : s.timerArmed = true
        · simp only [stepCall, ht, if_true]
          simp [cbFire, hcb]
        · simp [stepCall, ht]
    | resultMsg e args =>
        by_cases hr : s.registered = true
        · simp only [stepCall, hr, if_true]
          simp [cbFire, hcb]
        · simp [stepCall, hr]
    | exitEv => simp [stepCall]

/-- Witness for `call_callback_at_most_once` at a concrete call where the
timeout source fires twice. -/
theorem call_callback_at_most_once_witness :
    (runCall (mkCall "clouds" "svc" "m1" "d1" false [] [] 0)
        [.timerFire, .timerFire]).fired.length ≤ 1 ∧
    (stepCall (runCall (mkCall "clouds" "svc" "m1" "d1" false [] [] 0)
        [.timerFire]) .timerFire).fired
      = (runCall (mkCall "clouds" "svc" "m1" "d1" false [] [] 0)
        [.timerFire]).fired :=
  ⟨(call_callback_at_most_once "clouds" "svc" "m1" "d1" false [] [] 0
      [.timerFire, .timerFire]).1,
   (call_callback_at_most_once "clouds" "svc" "m1" "d1" false [] [] 0
      []).2 _ _ rfl⟩

/-- C2 counterexample: dispatching `call` against a service with no
registered server does start a per-call timeout timer —
`var tid = setTimeout(checkTimeout, ...)` runs unconditionally — even
though the very same dispatch ends with the `NoAvailableServer` error at
the callback once the empty scan reply arrives. -/
theorem call_no_server_starts_timer_counterexample :
    (mkCall "clouds" "svc" "m1" "d1" false [] [] 0).timerArmed = true ∧
    (runCall (mkCall "clouds" "svc" "m1" "d1" false [] [] 0)
        [.keysReply [] 0 100]).fired
      = [(some noAvailableServerError, [])] := by
  constructor <;> rfl

/-- C2 (amended): when discovery yields an empty server list the callback
is invoked with error kind `NoAvailableServer`
(`CLOUDS_NO_AVAILABLE_SERVER`) and no call envelope is published; however
a per-call timeout timer is started unconditionally by `call` — it is
merely cleared again by the latch when the `NoAvailableServer` callback
fires, so `checkTimeout` never runs. -/
theorem call_no_server_behavior (pfx name msgId msgData : String)
    (notAutoClean : Bool) (servers0 : List (String × List String))
    (ts0 : List (String × Int)) (rand rand2 : Nat) (now : Int)
    (hempty : (mapGet servers0 name).getD [] = []) :
    (mkCall pfx name msgId msgData notAutoClean servers0 ts0
        rand).scanPending = true ∧
    (mkCall pfx name msgId msgData notAutoClean servers0 ts0
        rand).timerArmed = true ∧
    (mkCall pfx name msgId msgData notAutoClean servers0 ts0
        rand).published = [] ∧
    (stepCall (mkCall pfx name msgId msgData notAutoClean servers0 ts0 rand)
        (.keysReply [] rand2 now)).fired
      = [(some noAvailableServerError, [])] ∧
    (stepCall (mkCall pfx name msgId msgData notAutoClean servers0 ts0 rand)
        (.keysReply [] rand2 now)).published = [] ∧
    (stepCall (mkCall pfx name msgId msgData notAutoClean servers0 ts0 rand)
        (.keysReply [] rand2 now)).timerArmed = false ∧
    noAvailableServerError.code = "CLOUDS_NO_AVAILABLE_SERVER" := by
  cases h : mapGet servers0 name with
  | none =>
      refine ⟨?_, ?_, ?_, ?_, ?_, ?_, rfl⟩ <;>
        simp [mkCall, scanIssued, h, mapGet_mapSet_self, stepCall,
          saveServerList, extractServerId, afterFindOneServer,
          returnOneServer, cbFire]
  | some l =>
      have hl : l = [] := by simpa [h] using hempty
      subst hl
      refine ⟨?_, ?_, ?_, ?_, ?_, ?_, rfl⟩ <;>
        simp [mkCall, scanIssued, h, mapGet_mapSet_self, stepCall,
          saveServerList, extractServerId, afterFindOneServer,
          returnOneServer, cbFire]

/-- Witness for `call_no_server_behavior` at a concrete cached-empty
state. -/
theorem call_no_server_behavior_witness :
    (mkCall "clouds" "svc" "m1" "d1" false [("svc", [])] [] 0).scanPending
        = true ∧
    (mkCall "clouds" "svc" "m1" "d1" false [("svc", [])] [] 0).timerArmed
        = true ∧
    (mkCall "clouds" "svc" "m1" "d1" false [("svc", [])] [] 0).published
        = [] ∧
    (stepCall (mkCall "clouds" "svc" "m1" "d1" false [("svc", [])] [] 0)
        (.keysReply [] 0 100)).fired
      = [(some noAvailableServerError, [])] ∧
    (stepCall (mkCall "clouds" "svc" "m1" "d1" false [("svc", [])] [] 0)
        (.keysReply [] 0 100)).published = [] ∧
    (stepCall (mkCall "clouds" "svc" "m1" "d1" false [("svc", [])] [] 0)
        (.keysReply [] 0 100)).timerArmed = false ∧
    noAvailableServerError.code = "CLOUDS_NO_AVAILABLE_SERVER" :=
  call_no_server_behavior "clouds" "svc" "m1" "d1" false [("svc", [])] []
    0 0 100 rfl

/-- C3 counterexample: a call dispatched to a cached server, followed by
`exit()`, still delivers a late `CallTimeout` to its completion handler
when the per-call timer expires — `exit` does not discard the pending
call. -/
theorem exit_late_timeout_counterexample :
    (runCall (mkCall "clouds" "svc" "m1" "d1" false [("svc", ["s1"])] [] 0)
        [.exitEv, .timerFire]).fired = [(some timeoutError, [])] := by
  rfl

/-- C3 (amended): `exit` cancels the eviction sweep interval and closes
both redis connections, but it does not discard in-flight pending calls:
the registered handler and the armed per-call timeout timer survive
`exit` unchanged, so a caller in flight at shutdown does receive a late
`CallTimeout` when its timer expires. -/
theorem exit_shutdown_behavior (s : CallState) :
    (stepCall s .exitEv).sweepActive = false ∧
    (stepCall s .exitEv).connOpen = false ∧
    (stepCall s .exitEv).registered = s.registered ∧
    (stepCall s .exitEv).timerArmed = s.timerArmed ∧
    (stepCall s .exitEv).fired = s.fired ∧
    (s.timerArmed = true → s.hasCallback = false →
      (stepCall (stepCall s .exitEv) .timerFire).fired
        = s.fired ++ [(some timeoutError, [])]) := by
  refine ⟨rfl, rfl, rfl, rfl, rfl, ?_⟩
  intro ht hc
  simp [stepCall, ht, cbFire, hc]

/-- Witness for `exit_shutdown_behavior` at a concrete dispatched call. -/
theorem exit_shutdown_behavior_witness :
    (stepCall (mkCall "clouds" "svc" "m1" "d1" false [("svc", ["s1"])] [] 0)
        .exitEv).sweepActive = false ∧
    (stepCall (mkCall "clouds" "svc" "m1" "d1" false [("svc", ["s1"])] [] 0)
        (.exitEv)).connOpen = false ∧
    (stepCall (stepCall
        (mkCall "clouds" "svc" "m1" "d1" false [("svc", ["s1"])] [] 0)
        (.exitEv)) (.timerFire)).fired
      = (mkCall "clouds" "svc" "m1" "d1" false [("svc", ["s1"])] [] 0).fired
          ++ [(some timeoutError, [])] :=
  ⟨(exit_shutdown_behavior _).1, (exit_shutdown_behavior _).2.1,
    (exit_shutdown_behavior
        (mkCall "clouds" "svc" "m1" "d1" false [("svc", ["s1"])] []
          0)).2.2.2.2.2 rfl rfl⟩

/-- C10: `exit` never invokes the callback passed to it: the wrapper
`me._callback(callback)` is built as `exit`'s final expression statement
(and equals the supplied function when one is supplied) but is discarded
without ever being applied, so no invocation appears in `exit`'s
operation trace. -/
theorem exit_never_invokes_callback (callback : Option JsFun) (f : JsFun) :
    ExitOp.invoke f ∉ exitOps callback ∧ clientCallback (some f) = f := by
  constructor
  · intro hmem
    simp [exitOps] at hmem
  · rfl

/-- C4 (code defect): in the bound caller returned by
`bind(name, retry)` with no `onRetry` supplied, the first invocation
overwrites the closure-shared `onRetry` variable with a default closure
capturing that invocation's own `args` and `call`, so a second invocation
with different arguments still dispatches the first invocation's
arguments to the first invocation's callback. -/
theorem bind_second_invocation_reuses_first :
    (bindInvoke (BindClosure.mk none) [1] 1).2 = ([1], 1) ∧
    (bindInvoke (bindInvoke (BindClosure.mk none) [1] 1).1 [2] 2).2
      = ([1], 1) ∧
    (bindInvoke (bindInvoke (BindClosure.mk none) [1] 1).1 [2] 2).2
      ≠ ([2], 2) := by
  decide

/-- C5 counterexample: after a remote scan for `"svc"` returns the empty
list, `_saveServerList` does cache `[]` with the current timestamp, yet
the cache probe of a subsequent `_findOneServer` for `"svc"` still issues
another remote key scan, because its cache-hit test demands a non-empty
list. -/
theorem empty_list_cached_but_rescanned_counterexample :
    mapGet (saveServerList [] [] "svc" [] 100).1 "svc" = some [] ∧
    mapGet (saveServerList [] [] "svc" [] 100).2 "svc" = some 100 ∧
    scanIssued (saveServerList [] [] "svc" [] 100).1 "svc" = true := by
  exact ⟨rfl, rfl, rfl⟩

/-- C5 (amended): an empty remote scan result is stored in the cache with
the current timestamp, and the call fails with `NoAvailableServer`
(`CLOUDS_NO_AVAILABLE_SERVER`); but a subsequent `_findOneServer` for the
same name issues another remote key scan regardless — the cached empty
entry does not suppress rescans, since the scan condition is that the
cached list has fewer than one element. -/
theorem empty_scan_result_cached (servers : List (String × List String))
    (ts : List (String × Int)) (name : String) (now : Int) (rand : Nat) :
    mapGet (saveServerList servers ts name [] now).1 name = some [] ∧
    mapGet (saveServerList servers ts name [] now).2 name = some now ∧
    scanIssued (saveServerList servers ts name [] now).1 name = true ∧
    returnOneServer [] rand = .error noAvailableServerError ∧
    noAvailableServerError.code = "CLOUDS_NO_AVAILABLE_SERVER" := by
  refine ⟨mapGet_mapSet_self servers name [],
    mapGet_mapSet_self ts name now, ?_, rfl, rfl⟩
  simp [scanIssued, saveServerList, mapGet_mapSet_self]

theorem returnOneServer_mem (list : List String) (rand : Nat) (r : String)
    (h : returnOneServer list rand = .ok r) : r ∈ list := by
  unfold returnOneServer at h
  by_cases hl : list.length < 1
  · rw [if_pos hl] at h
    exact absurd h (by simp)
  · rw [if_neg hl] at h
    have hlen : 0 < list.length := by omega
    have hidx : rand % list.length < list.length := Nat.mod_lt _ hlen
    rw [List.getD_eq_getElem?_getD, List.getElem?_eq_getElem hidx] at h
    simp only [Option.getD_some, Except.ok.injEq] at h
    subst h
    exact List.getElem_mem hidx

theorem removeServer_mapGet (servers : List (String × List String))
    (pfx : String) (nac : Bool) (sid name : String) :
    mapGet (removeServer servers pfx nac (some sid) name).1 name
      = (mapGet servers name).map
          (fun l => l.filter (fun item => item ≠ sid)) := by
  unfold removeServer
  cases h : mapGet servers name with
  | none => simp [h]
  | some l =>
      by_cases hl : l.length > 0
      · simp [h, hl, removeServerFilter, mapGet_mapSet_self]
      · have hnil : l = [] := by
          cases l with
          | nil => rfl
          | cons a t => simp at hl
        subst hnil
        simp [h, hl]

theorem removeServer_dels (servers : List (String × List String))
    (pfx : String) (nac : Bool) (serverId : Option String)
    (name : String) :
    (removeServer servers pfx nac serverId name).2
      = if nac then []
        else [clientKey pfx ["S", name, serverId.getD "undefined"]] := by
  rfl

/-- C6: on per-call timeout expiry of a call dispatched to server `sid`
for service `s.name`: the pending handler is removed, `sid` is filtered
out of the local cached list (so a subsequent `returnOneServer` selection
from that list never answers `sid`), the remote registration key
`<prefix>:S:<name>:<sid>` is deleted unless `notAutoCleanRemoteServer` is
configured, and the callback fires with the `CallTimeout` error
(`CLOUDS_CALL_SERVICE_TIMEOUT`). -/
theorem timeout_evicts_server (s : CallState) (sid : String)
    (harm : s.timerArmed = true) (hcb : s.hasCallback = false)
    (hsid : s.serverId = some sid) :
    (stepCall s .timerFire).registered = false ∧
    mapGet (stepCall s .timerFire).servers s.name
      = (mapGet s.servers s.name).map
          (fun l => l.filter (fun item => item ≠ sid)) ∧
    (∀ rand r,
        returnOneServer
            ((mapGet (stepCall s .timerFire).servers s.name).getD []) rand
          = .ok r → r ≠ sid) ∧
    (s.notAutoCleanRemoteServer = false →
      (stepCall s .timerFire).deletedKeys
        = s.deletedKeys ++ [clientKey s.pfx ["S", s.name, sid]]) ∧
    (s.notAutoCleanRemoteServer = true →
      (stepCall s .timerFire).deletedKeys = s.deletedKeys) ∧
    (stepCall s .timerFire).fired
      = s.fired ++ [(some timeoutError, [])] ∧
    timeoutError.code = "CLOUDS_CALL_SERVICE_TIMEOUT" := by
  have hservers : mapGet (stepCall s .timerFire).servers s.name
      = (mapGet s.servers s.name).map
          (fun l => l.filter (fun item => item ≠ sid)) := by
    simp [stepCall, harm, cbFire, hcb, hsid, removeServer_mapGet]
  refine ⟨?_, hservers, ?_, ?_, ?_, ?_, rfl⟩
  · simp [stepCall, harm, cbFire, hcb]
  · intro rand r hr
    have hmem := returnOneServer_mem _ _ _ hr
    rw [hservers] at hmem
    cases hms : mapGet s.servers s.name with
    | none => rw [hms] at hmem; simp at hmem
    | some l =>
        rw [hms] at hmem
        have hmem' : r ∈ l.filter (fun item => item ≠ sid) := hmem
        have hf := (List.mem_filter.mp hmem').2
        simpa using hf
  · intro hnac
    simp [stepCall, harm, cbFire, hcb, removeServer_dels, hnac, hsid]
  · intro hnac
    simp [stepCall, harm, cbFire, hcb, removeServer_dels, hnac]
  · simp [stepCall, harm, cbFire, hcb]

/-- Witness for `timeout_evicts_server` at a concrete dispatched call. -/
theorem timeout_evicts_server_witness :
    (stepCall (mkCall "clouds" "svc" "m1" "d1" false
        [("svc", ["s1", "s2"])] [] 0) .timerFire).registered = false ∧
    mapGet (stepCall (mkCall "clouds" "svc" "m1" "d1" false
        [("svc", ["s1", "s2"])] [] 0) .timerFire).servers "svc"
      = some ["s2"] ∧
    (stepCall (mkCall "clouds" "svc" "m1" "d1" false
        [("svc", ["s1", "s2"])] [] 0) .timerFire).deletedKeys
      = ["clouds:S:svc:s1"] ∧
    (stepCall (mkCall "clouds" "svc" "m1" "d1" false
        [("svc", ["s1", "s2"])] [] 0) .timerFire).fired
      = [(some timeoutError, [])] := by
  have h := timeout_evicts_server
    (mkCall "clouds" "svc" "m1" "d1" false [("svc", ["s1", "s2"])] [] 0)
    "s1" rfl rfl rfl
  exact ⟨h.1, h.2.1.trans rfl, (h.2.2.2.1 rfl).trans rfl,
    h.2.2.2.2.2.1.trans rfl⟩

/-- C7: an attempt's completion triggers a retry iff the error code is
`CLOUDS_CALL_SERVICE_TIMEOUT` (retried immediately) or
`CLOUDS_NO_AVAILABLE_SERVER` (retried after `timeout` ms, the configured
call timeout) and fewer than `retry` retries have occurred; otherwise the
outer callback receives the attempt's result.  Consequently a bound
caller with `retry = 2` against attempts that all time out dispatches
exactly 3 calls and delivers one final `CallTimeout`. -/
theorem bind_retry_policy :
    (∀ timeoutMs retryCounter retry : Nat,
        retryAction timeoutMs none retryCounter retry = .terminal) ∧
    (∀ (timeoutMs : Nat) (e : Err) (retryCounter retry : Nat),
        retryAction timeoutMs (some e) retryCounter retry ≠ .terminal ↔
          (retryCounter < retry ∧
            (e.code = "CLOUDS_CALL_SERVICE_TIMEOUT" ∨
              e.code = "CLOUDS_NO_AVAILABLE_SERVER"))) ∧
    (∀ (timeoutMs : Nat) (e : Err) (retryCounter retry : Nat),
        retryCounter < retry → e.code = "CLOUDS_CALL_SERVICE_TIMEOUT" →
          retryAction timeoutMs (some e) retryCounter retry
            = .retryImmediate) ∧
    (∀ (timeoutMs : Nat) (e : Err) (retryCounter retry : Nat),
        retryCounter < retry → e.code = "CLOUDS_NO_AVAILABLE_SERVER" →
          retryAction timeoutMs (some e) retryCounter retry
            = .retryDelayed timeoutMs) ∧
    (∀ timeoutMs : Nat,
        runBound timeoutMs (fun _ => some timeoutError) 2
          = (3, some timeoutError)) := by
  refine ⟨fun _ _ _ => rfl, ?_, ?_, ?_, fun _ => rfl⟩
  · intro tms e c r
    unfold retryAction
    by_cases hcr : c < r
    · by_cases h1 : e.code = "CLOUDS_CALL_SERVICE_TIMEOUT"
      · simp [hcr, h1]
      · by_cases h2 : e.code = "CLOUDS_NO_AVAILABLE_SERVER"
        · simp [hcr, h1, h2]
        · simp [hcr, h1, h2]
    · simp [hcr]
  · intro tms e c r hcr hcode
    simp [retryAction, hcr, hcode]
  · intro tms e c r hcr hcode
    have hne : e.code ≠ "CLOUDS_CALL_SERVICE_TIMEOUT" := by
      rw [hcode]; decide
    simp [retryAction, hcr, hcode, hne]

/-- Witness for `bind_retry_policy` at concrete inputs. -/
theorem bind_retry_policy_witness :
    retryAction 60000 (some timeoutError) 0 2 = .retryImmediate ∧
    retryAction 60000 (some noAvailableServerError) 0 2
      = .retryDelayed 60000 ∧
    retryAction 60000 none 0 2 = .terminal ∧
    retryAction 60000 (some timeoutError) 2 2 = .terminal ∧
    runBound 60000 (fun _ => some timeoutError) 2
      = (3, some timeoutError) := by
  refine ⟨bind_retry_policy.2.2.1 60000 timeoutError 0 2 (by decide) rfl,
    bind_retry_policy.2.2.2.1 60000 noAvailableServerError 0 2
      (by decide) rfl,
    bind_retry_policy.1 60000 0 2, ?_,
    bind_retry_policy.2.2.2.2 60000⟩
  by_contra hne
  exact absurd ((bind_retry_policy.2.1 60000 timeoutError 2 2).mp hne).1
    (by decide)

/-- C8: routing of a delivered message: a channel other than the client's
own listen channel is discarded with no state change; a non-`"result"`
envelope is discarded; a `"result"` envelope whose id matches no pending
call is discarded with no error; otherwise the pending entry is removed
and its handler applied to `(error-or-null, ...args)` — concretely, a
result with `args = [42]` and no error yields `callback(null, 42)`. -/
theorem listener_message_routing :
    (∀ (listenKey : String) (messages : List (String × Nat))
        (channel : String) (msg : Envelope), channel ≠ listenKey →
        onMessage listenKey messages channel msg = (messages, none)) ∧
    (∀ (listenKey : String) (messages : List (String × Nat))
        (msg : Envelope), msg.type ≠ "result" →
        onMessage listenKey messages listenKey msg = (messages, none)) ∧
    (∀ (listenKey : String) (messages : List (String × Nat))
        (msg : Envelope), msg.type = "result" →
        mapGet messages msg.id = none →
        onMessage listenKey messages listenKey msg = (messages, none)) ∧
    (∀ (listenKey : String) (messages : List (String × Nat))
        (msg : Envelope) (fn : Nat), msg.type = "result" →
        mapGet messages msg.id = some fn →
        onMessage listenKey messages listenKey msg
          = (mapDel messages msg.id, some (fn, msg.error, msg.args))) ∧
    onMessage "clouds:L:c1" [("X", 7)] "clouds:L:c1"
        { id := "X", sender := "s1", type := "result", args := [42],
          error := none }
      = ([], some (7, none, [42])) := by
  refine ⟨?_, ?_, ?_, ?_, rfl⟩
  · intro lk ms ch msg h
    simp [onMessage, h]
  · intro lk ms msg h
    simp [onMessage, h]
  · intro lk ms msg h1 h2
    simp [onMessage, h1, h2]
  · intro lk ms msg fn h1 h2
    simp [onMessage, h1, h2]

/-- Witness for `listener_message_routing` covering each branch at
concrete inputs. -/
theorem listener_message_routing_witness :
    onMessage "clouds:L:c1" [("X", 7)] "clouds:L:other"
        { id := "X", sender := "s1", type := "result", args := [42],
          error := none } = ([("X", 7)], none) ∧
    onMessage "clouds:L:c1" [("X", 7)] "clouds:L:c1"
        { id := "X", sender := "s1", type := "call", args := [42],
          error := none } = ([("X", 7)], none) ∧
    onMessage "clouds:L:c1" [("X", 7)] "clouds:L:c1"
        { id := "Y", sender := "s1", type := "result", args := [],
          error := none } = ([("X", 7)], none) ∧
    onMessage "clouds:L:c1" [("X", 7)] "clouds:L:c1"
        { id := "X", sender := "s1", type := "result", args := [42],
          error := none } = ([], some (7, none, [42])) :=
  ⟨listener_message_routing.1 _ _ _ _ (by decide),
    listener_message_routing.2.1 _ _ _ (by decide),
    listener_message_routing.2.2.1 _ _ _ rfl rfl,
    listener_message_routing.2.2.2.1 _ _ _ 7 rfl rfl⟩

/-- C9 counterexample: the sweep removes an entry whose timestamp equals
`tick time - serverMaxAge * 1000` exactly — an entry whose age is exactly
`serverMaxAge`, hence not strictly older than `serverMaxAge` — because
the code's condition is `this._serversTimestamp[name] <= t`. -/
theorem sweep_boundary_counterexample :
    autoClearTick [("a", ["s1"])] [("a", 0)] 2000 2 = ([], []) ∧
    ¬ ((0 : Int) < 2000 - 2 * 1000) := by
  exact ⟨rfl, by decide⟩

/-- C9 (amended): the sweep interval period is `serverMaxAge * 500` ms
(`serverMaxAge * 0.5` seconds), and each tick removes exactly those
cached entries whose timestamp is `≤ tick time - serverMaxAge * 1000`
(age at least `serverMaxAge` seconds), leaving the remaining entries
unchanged; with `serverMaxAge = 2` an entry stamped at time 0 survives
the tick at 1000 ms and is removed by the tick at 2000 ms, hence is
absent from the cache by about t = 3 s even with no further lookups. -/
theorem sweep_tick_behavior (servers : List (String × List String))
    (ts : List (String × Int)) (now maxAge : Int) (name : String) :
    (mapGet (autoClearTick servers ts now maxAge).1 name
      = if sweepExpired ts (now - maxAge * 1000) name then none
        else mapGet servers name) ∧
    (mapGet (autoClearTick servers ts now maxAge).2 name
      = if (servers.map (fun p => p.1)).contains name
            && sweepExpired ts (now - maxAge * 1000) name then none
        else mapGet ts name) ∧
    autoClearIntervalMs maxAge = maxAge * 500 ∧
    autoClearTick [("a", ["s1"])] [("a", 0)] 1000 2
      = ([("a", ["s1"])], [("a", 0)]) ∧
    autoClearTick [("a", ["s1"])] [("a", 0)] 2000 2 = ([], []) := by
  refine ⟨?_, ?_, rfl, rfl, rfl⟩
  · exact mapGet_filter_keyPred_not servers
      (fun x => sweepExpired ts (now - maxAge * 1000) x) name
  · exact mapGet_filter_keyPred_not ts
      (fun x => (servers.map (fun p => p.1)).contains x
        && sweepExpired ts (now - maxAge * 1000) x) name

end Clouds
